import Mathlib

/-!
# Verification of the astroglide celestial-event core

Shallow embedding of the astroglide Go library (sun/moon rise-set, twilight,
moon phase) together with proofs about the embedded definitions.

Conventions of the embedding:

* Go `time.Time` / `time.Duration` values are modelled as integers
  (nanoseconds on an absolute scale), exactly as Go stores durations as
  `int64` nanosecond counts.  Go's integer division on durations truncates
  toward zero and is modelled by `Int.tdiv`.
* `float64` quantities that only flow through comparisons and field
  arithmetic (the altitude solver, the Moon horizon tweak) are modelled
  over `ℚ`, keeping every definition executable.
* `float64` quantities that flow through transcendental functions
  (`math.Sin`, `math.Atan2`, ...) are modelled over `ℝ` with the exact
  real functions.
* The solver's bisection loop (`for b.Sub(a) > tol` in Go) is modelled
  with an explicit fuel parameter; `none` means the fuel was exhausted,
  and "the Go loop terminates" is rendered as "some fuel (hence every
  larger fuel) returns `some _`".
-/

namespace Astro

/-! ## internal/solver/altitude.go -/

namespace Solver

/-- `EventType` from `internal/solver/altitude.go`: `CrossingUp` (rise)
or `CrossingDown` (set). -/
inductive EventType where
  | up   -- CrossingUp
  | down -- CrossingDown
deriving DecidableEq, Repr

/-- `Result` from `internal/solver/altitude.go`: approximate event time
plus an `OK` flag.  The Go zero `time.Time` of a not-found result is
modelled as time `0`. -/
structure Result where
  time : ℤ
  ok : Bool
deriving DecidableEq, Repr

/-- The `Result{OK: false}` value returned on every failure path. -/
def notFound : Result := ⟨0, false⟩

/-- `hasCrossing` from `internal/solver/altitude.go`:
rising needs `a1 < 0 && a2 >= 0`, setting needs `a1 > 0 && a2 <= 0`. -/
def hasCrossing (a1 a2 : ℚ) : EventType → Bool
  | .up   => decide (a1 < 0) && decide (0 ≤ a2)
  | .down => decide (0 < a1) && decide (a2 ≤ 0)

/-- The loop `for b.Sub(a) > tol { ... }` of `bisect` in
`internal/solver/altitude.go`, with explicit fuel.  State: bracket
`[a, b]` with cached values `altA = f a - target`, `altB = f b - target`.
Each iteration takes the midpoint `a + (b-a)/2` (Go duration division,
truncation toward zero) and replaces the endpoint that keeps the
directional sign condition.  On exit it returns the midpoint of the
final bracket. -/
def bisectLoop (f : ℤ → ℚ) (target : ℚ) (et : EventType) (tol : ℤ) :
    ℕ → ℤ → ℚ → ℤ → ℚ → Option ℤ
  | 0, _, _, _, _ => none
  | fuel + 1, a, altA, b, altB =>
    if tol < b - a then
      let mid := a + Int.tdiv (b - a) 2
      let altM := f mid - target
      if hasCrossing altA altM et then
        bisectLoop f target et tol fuel a altA mid altM
      else
        bisectLoop f target et tol fuel mid altM b altB
    else
      some (a + Int.tdiv (b - a) 2)

/-- `bisect` from `internal/solver/altitude.go`: re-evaluates the bracket
endpoints, re-checks the crossing (safety check; returns `OK:false` if it
fails), then runs the bisection loop. -/
def bisect (f : ℤ → ℚ) (target : ℚ) (et : EventType) (tol : ℤ)
    (fuel : ℕ) (a b : ℤ) : Option Result :=
  let altA := f a - target
  let altB := f b - target
  if hasCrossing altA altB et then
    (bisectLoop f target et tol fuel a altA b altB).map (fun t => ⟨t, true⟩)
  else
    some notFound

/-- The sampling loop `for i := 1; i < steps; i++` of `FindAltitudeEvent`:
sample `i` is at `start + i*interval`; on the first bracket it calls
`bisect` on `[prevT, t]`; if the samples are exhausted it returns
`Result{OK:false}`.  `rem` counts the remaining iterations
(`steps - i`). -/
def scanLoop (f : ℤ → ℚ) (target : ℚ) (et : EventType) (tol : ℤ)
    (bfuel : ℕ) (start interval : ℤ) :
    ℕ → ℕ → ℤ → ℚ → Option Result
  | _, 0, _, _ => some notFound
  | i, rem + 1, prevT, prevAlt =>
    let t := start + (i : ℤ) * interval
    let alt := f t - target
    if hasCrossing prevAlt alt et then
      bisect f target et tol bfuel prevT t
    else
      scanLoop f target et tol bfuel start interval (i + 1) rem t alt

/-- The clamp `if steps < 2 { steps = 2 }` of `FindAltitudeEvent`. -/
def clampSteps (steps0 : ℤ) : ℤ :=
  if steps0 < 2 then 2 else steps0

/-- The sampling interval
`interval := end.Sub(start) / time.Duration(steps-1)` of
`FindAltitudeEvent` (Go duration division truncates toward zero). -/
def sampleInterval (start end_ steps0 : ℤ) : ℤ :=
  Int.tdiv (end_ - start) (clampSteps steps0 - 1)

/-- `FindAltitudeEvent` from `internal/solver/altitude.go`, with the
bisection fuel (`bfuel`) as an explicit parameter:
returns `Result{OK:false}` when `!start.Before(end)`; clamps `steps`
below 2 up to 2; partitions the window into `steps-1` equal intervals
and scans for the first bracket. -/
def FindAltitudeEventFuel (bfuel : ℕ) (f : ℤ → ℚ) (start end_ : ℤ)
    (targetDeg : ℚ) (et : EventType) (steps0 tol : ℤ) : Option Result :=
  if start < end_ then
    scanLoop f targetDeg et tol bfuel start (sampleInterval start end_ steps0) 1
      (clampSteps steps0 - 1).toNat start (f start - targetDeg)
  else
    some notFound

/-- `FindAltitudeEvent` with the default fuel `(end - start) + 1`, which
(as proved below) is always sufficient whenever the tolerance is at least
one nanosecond. -/
def FindAltitudeEvent (f : ℤ → ℚ) (start end_ : ℤ) (targetDeg : ℚ)
    (et : EventType) (steps0 tol : ℤ) : Option Result :=
  FindAltitudeEventFuel ((end_ - start).toNat + 1) f start end_ targetDeg et steps0 tol

/-- The value `f (start + i*interval) - targetDeg` of sample `i` of the
bracketing scan. -/
def sampleVal (f : ℤ → ℚ) (targetDeg : ℚ) (start interval : ℤ) (i : ℕ) : ℚ :=
  f (start + (i : ℤ) * interval) - targetDeg

/-- `FindAltitudeEvent` diverges on these arguments: no amount of
bisection fuel makes it return. -/
def NeverReturns (f : ℤ → ℚ) (start end_ : ℤ) (targetDeg : ℚ)
    (et : EventType) (steps0 tol : ℤ) : Prop :=
  ∀ bfuel : ℕ, FindAltitudeEventFuel bfuel f start end_ targetDeg et steps0 tol = none

end Solver

/-! ## internal/moon/moon.go — horizon constants (pure `float64` arithmetic,
modelled over `ℚ`) -/

namespace Moon

/-- `moonSetExtraDropDeg` from `internal/moon/moon.go` (0.16°). -/
def moonSetExtraDropDeg : ℚ := 0.16

/-- `ApparentHorizonAltitudeMoon` from `internal/moon/moon.go`:
base horizon −0.90°, adjusted by `-0.6 * (d - 384400)/384400`;
non-positive distances fall back to the base value. -/
def ApparentHorizonAltitudeMoon (distanceKm : ℚ) : ℚ :=
  if distanceKm ≤ 0 then
    -0.90
  else
    -0.90 - 0.6 * ((distanceKm - 384400.0) / 384400.0)

/-- The `altFuncRise` closure of `RiseSetForDate` in
`internal/moon/moon.go`: topocentric altitude minus the
distance-dependent horizon.  The Moon altitude model (`apparentAltitude`)
and the distance model (`GeocentricEquatorialWithDistanceApprox(..).Distance`)
enter as the parameters `alt` and `dist`; the claims about these closures
are about their structure and hold for the source's instantiations. -/
def altFuncRise (alt dist : ℤ → ℚ) (t : ℤ) : ℚ :=
  alt t - ApparentHorizonAltitudeMoon (dist t)

/-- The `altFuncSet` closure of `RiseSetForDate` in
`internal/moon/moon.go`: same as `altFuncRise`, but the horizon is
`ApparentHorizonAltitudeMoon(eq.Distance) + moonSetExtraDropDeg`. -/
def altFuncSet (alt dist : ℤ → ℚ) (t : ℤ) : ℚ :=
  alt t - (ApparentHorizonAltitudeMoon (dist t) + moonSetExtraDropDeg)

end Moon

/-! ## astroglide.go — orchestrator wrappers (calendar pinning and the
`NoRiseOrSet` error logic) -/

namespace Orchestrator

/-- A Go `time.Time` broken into its civil calendar/clock components in
some fixed timezone.  Timezone-database effects (DST gaps) are outside
the embedding; a `time.Time` obtained from the `time` package always has
clock fields in their canonical ranges (`Hour() ∈ [0,23]`, ...). -/
structure CivilTime where
  year : ℤ
  month : ℤ
  day : ℤ
  hour : ℤ
  minute : ℤ
  second : ℤ
  nano : ℤ
deriving DecidableEq, Repr

/-- Clock fields in the canonical ranges guaranteed for any `time.Time`
value by the `time` package accessors (`Hour() ∈ [0,23]`,
`Minute(), Second() ∈ [0,59]`, `Nanosecond() ∈ [0,1e9)`). -/
def clockInRange (t : CivilTime) : Prop :=
  0 ≤ t.hour ∧ t.hour < 24 ∧ 0 ≤ t.minute ∧ t.minute < 60 ∧
  0 ≤ t.second ∧ t.second < 60 ∧ 0 ≤ t.nano ∧ t.nano < 1000000000

/-- The clock-field normalisation performed by Go's
`time.Date(year, month, day, hour, min, sec, nsec, loc)`: nanoseconds
are carried into seconds, seconds into minutes, minutes into hours and
hours into days, each borrowing toward a remainder in `[0, base)`
(floor division, like Go's internal `norm`).  Calendar renormalisation
of an out-of-range day-of-month is not needed here: the wrappers below
only ever pass clock fields that are already in range, so the day carry
is zero. -/
def timeDate (year month day hour minute second nano : ℤ) : CivilTime :=
  let s1 := second + Int.fdiv nano 1000000000
  let ns := Int.fmod nano 1000000000
  let m1 := minute + Int.fdiv s1 60
  let s2 := Int.fmod s1 60
  let h1 := hour + Int.fdiv m1 60
  let m2 := Int.fmod m1 60
  let d1 := day + Int.fdiv h1 24
  let h2 := Int.fmod h1 24
  ⟨year, month, d1, h2, m2, s2, ns⟩

/-- `withLocalDate` from `astroglide.go`: rebuilds `t` with its calendar
date forced to `(year, month, day)` while keeping the clock fields, via
`time.Date(year, month, day, t.Hour(), t.Minute(), t.Second(),
t.Nanosecond(), loc)`. -/
def withLocalDate (t : CivilTime) (year month day : ℤ) : CivilTime :=
  timeDate year month day t.hour t.minute t.second t.nano

/-- The error values of `astroglide.go` (`ErrNoRiseNoSet`,
`ErrNotImplemented`, the `unknown body` error). -/
inductive AstroError where
  | noRiseNoSet
  | notImplemented
  | unknownBody
deriving DecidableEq, Repr

/-- The public `RiseSet` of `astroglide.go`.  A Go field left at its zero
`time.Time` ("absent", never populated) is modelled as `none`. -/
structure RiseSetOut where
  rise : Option CivilTime
  set : Option CivilTime
deriving DecidableEq, Repr

/-- `moonRiseSet` from `astroglide.go`, with the internal
`moon.RiseSetForDate` call abstracted into its outputs
`(riseUTC, setUTC, okRise, okSet)` and the timezone conversion
`.In(locTZ)` abstracted as `toLocal`.  If neither event was found it
returns `ErrNoRiseNoSet`; otherwise each found event is converted to
local time, pinned to the requested calendar date and populated
independently. -/
def moonRiseSet (toLocal : CivilTime → CivilTime) (year month day : ℤ)
    (riseUTC setUTC : CivilTime) (okRise okSet : Bool) :
    Except AstroError RiseSetOut :=
  if !okRise && !okSet then
    .error .noRiseNoSet
  else
    .ok
      { rise :=
          if okRise then some (withLocalDate (toLocal riseUTC) year month day)
          else none
        set :=
          if okSet then some (withLocalDate (toLocal setUTC) year month day)
          else none }

/-- `sunRiseSet` from `astroglide.go`, abstracted exactly like
`moonRiseSet` (the Go source of the two wrappers is line-for-line the
same shape around `sun.RiseSetForDate`). -/
def sunRiseSet (toLocal : CivilTime → CivilTime) (year month day : ℤ)
    (riseUTC setUTC : CivilTime) (okRise okSet : Bool) :
    Except AstroError RiseSetOut :=
  if !okRise && !okSet then
    .error .noRiseNoSet
  else
    .ok
      { rise :=
          if okRise then some (withLocalDate (toLocal riseUTC) year month day)
          else none
        set :=
          if okSet then some (withLocalDate (toLocal setUTC) year month day)
          else none }

end Orchestrator

/-! ## Real-valued models: `internal/timeutil`, `internal/sun/position.go`,
`internal/moon/position.go`, `MoonPhaseAt` -/

namespace RealModel

open Real

noncomputable section

/-- `Deg2Rad` from `internal/timeutil`. -/
def Deg2Rad (d : ℝ) : ℝ := d * Real.pi / 180.0

/-- `Rad2Deg` from `internal/timeutil`. -/
def Rad2Deg (r : ℝ) : ℝ := r * 180.0 / Real.pi

/-- Truncation toward zero on the reals (the rounding used by Go's
`math.Mod`). -/
def trunc (x : ℝ) : ℝ := if 0 ≤ x then (⌊x⌋ : ℝ) else (⌈x⌉ : ℝ)

/-- Go's `math.Mod(x, y)`: remainder with the sign of `x`,
`x - y * trunc(x / y)`. -/
def goMod (x y : ℝ) : ℝ := x - y * trunc (x / y)

/-- `Normalize360` from `internal/timeutil`: `math.Mod(d, 360)` with
`+360` correction for negative results. -/
def Normalize360 (d : ℝ) : ℝ :=
  let m := goMod d 360.0
  if m < 0 then m + 360.0 else m

/-- Go's `math.Atan2(y, x)`: the angle of the point `(x, y)`, in
`(-π, π]`, which is exactly `Complex.arg (x + y*i)`. -/
def atan2 (y x : ℝ) : ℝ := Complex.arg ⟨x, y⟩

/-- Geocentric equatorial coordinates in degrees (`Equatorial` in
`internal/sun/position.go` and `internal/moon/position.go`). -/
structure Equatorial where
  RA : ℝ
  Dec : ℝ

/-- `sun.GeocentricEquatorialApprox` from `internal/sun/position.go`,
as a function of `d = DaysSinceJ2000(t)`: truncated equation-of-center
solar model, rotated into equatorial coordinates; the right ascension is
`atan2` of the rotated `(x, y)` with `+2π` when negative, the
declination is `asin` of the rotated `z`. -/
def sunGeocentricEquatorialApprox (d : ℝ) : Equatorial :=
  let g := Deg2Rad (357.529 + 0.98560028 * d)
  let q := Deg2Rad (280.459 + 0.98564736 * d)
  let L := q + Deg2Rad 1.915 * Real.sin g + Deg2Rad 0.020 * Real.sin (2 * g)
  let eps := Deg2Rad (23.439 - 0.00000036 * d)
  let x := Real.cos L
  let y := Real.cos eps * Real.sin L
  let z := Real.sin eps * Real.sin L
  let ra := atan2 y x
  let ra := if ra < 0 then ra + 2 * Real.pi else ra
  let dec := Real.arcsin z
  ⟨Rad2Deg ra, Rad2Deg dec⟩

/-- `moon.GeocentricEquatorialApprox` from `internal/moon/position.go`,
as a function of `d = DaysSinceJ2000(t)`: five normalized fundamental
arguments, truncated longitude/latitude series, ecliptic→equatorial
rotation; right ascension and declination derived as for the Sun. -/
def moonGeocentricEquatorialApprox (d : ℝ) : Equatorial :=
  let Lprime := Normalize360 (218.3164477 + 13.17639648 * d)
  let M := Normalize360 (357.5291092 + 0.98560028 * d)
  let Mm := Normalize360 (134.9633964 + 13.06499295 * d)
  let D := Normalize360 (297.8501921 + 12.19074912 * d)
  let F := Normalize360 (93.2720950 + 13.22935024 * d)
  let Lr := Deg2Rad Lprime
  let Mr := Deg2Rad M
  let Mmr := Deg2Rad Mm
  let Dr := Deg2Rad D
  let Fr := Deg2Rad F
  let lon := Lr +
    Deg2Rad 6.289 * Real.sin Mmr +
    Deg2Rad 1.274 * Real.sin (2 * Dr - Mmr) +
    Deg2Rad 0.658 * Real.sin (2 * Dr) +
    Deg2Rad 0.214 * Real.sin (2 * Mmr) -
    Deg2Rad 0.186 * Real.sin Mr -
    Deg2Rad 0.114 * Real.sin (2 * Fr)
  let lat := Deg2Rad 5.128 * Real.sin Fr +
    Deg2Rad 0.280 * Real.sin (Mmr + Fr) +
    Deg2Rad 0.277 * Real.sin (Mmr - Fr) +
    Deg2Rad 0.173 * Real.sin (2 * Dr - Fr)
  let eps := Deg2Rad (23.439291 - 0.0000137 * d)
  let x := Real.cos lat * Real.cos lon
  let y := Real.cos lat * Real.sin lon
  let z := Real.sin lat
  let xEq := x
  let yEq := y * Real.cos eps - z * Real.sin eps
  let zEq := y * Real.sin eps + z * Real.cos eps
  let ra := atan2 yEq xEq
  let ra := if ra < 0 then ra + 2 * Real.pi else ra
  let dec := Real.arcsin zEq
  ⟨Rad2Deg ra, Rad2Deg dec⟩

/-- The `MoonPhase` value of `astroglide.go` (the `Time` field, which is
returned unchanged, is omitted). -/
structure MoonPhase where
  Fraction : ℝ
  Elongation : ℝ
  Waxing : Bool
  Name : String

/-- `classifyMoonPhaseName` from `astroglide.go`. -/
def classifyMoonPhaseName (f : ℝ) (waxing : Bool) : String :=
  if f < 0.01 then "New Moon"
  else if 1 - 0.01 < f then "Full Moon"
  else if |f - 0.5| < 0.05 then
    if waxing then "First Quarter" else "Last Quarter"
  else if f < 0.5 then
    if waxing then "Waxing Crescent" else "Waning Crescent"
  else
    if waxing then "Waxing Gibbous" else "Waning Gibbous"

/-- The Sun–Moon separation cosine of `MoonPhaseAt` in `astroglide.go`,
clamped into `[-1, 1]`: the spherical law of cosines on the two models'
RA/Dec, then the two clamping branches. -/
def moonPhaseCosPsi (d : ℝ) : ℝ :=
  let mEq := moonGeocentricEquatorialApprox d
  let sEq := sunGeocentricEquatorialApprox d
  let raSun := Deg2Rad sEq.RA
  let decSun := Deg2Rad sEq.Dec
  let raMoon := Deg2Rad mEq.RA
  let decMoon := Deg2Rad mEq.Dec
  let dRA := raSun - raMoon
  let cosPsi := Real.sin decSun * Real.sin decMoon +
    Real.cos decSun * Real.cos decMoon * Real.cos dRA
  if 1 < cosPsi then 1
  else if cosPsi < -1 then -1
  else cosPsi

/-- `MoonPhaseAt` from `astroglide.go`, as a function of
`d = DaysSinceJ2000(t.UTC())`: elongation `ψ = acos` of the clamped
cosine, illuminated fraction `0.5*(1 - cosψ)` clamped into `[0,1]`,
waxing when `Normalize360(RA_moon - RA_sun) < 180`. -/
def MoonPhaseAt (d : ℝ) : MoonPhase :=
  let mEq := moonGeocentricEquatorialApprox d
  let sEq := sunGeocentricEquatorialApprox d
  let cosPsi := moonPhaseCosPsi d
  let psi := Real.arccos cosPsi
  let elongDeg := Rad2Deg psi
  let fraction0 := 0.5 * (1 - cosPsi)
  let fraction :=
    if fraction0 < 0 then 0
    else if 1 < fraction0 then 1
    else fraction0
  let sepDeg := Normalize360 (mEq.RA - sEq.RA)
  let waxing := decide (sepDeg < 180.0)
  ⟨fraction, elongDeg, waxing, classifyMoonPhaseName fraction waxing⟩

/-- The Go signature is `MoonPhaseAt(t) (MoonPhase, error)`; the
implementation ends in `return MoonPhase{...}, nil` on every path. -/
def MoonPhaseAtE (d : ℝ) : Except Orchestrator.AstroError MoonPhase :=
  .ok (MoonPhaseAt d)

end

end RealModel

/-! ## Lemmas about the solver -/

namespace Solver

section SolverLemmas

variable (f : ℤ → ℚ) (target : ℚ) (et : EventType) (tol : ℤ)

/-- Any value produced by the bisection loop lies inside the initial
bracket. -/
lemma bisectLoop_mem : ∀ (fuel : ℕ) (a b : ℤ) (altA altB : ℚ) (t_ : ℤ),
    a ≤ b → bisectLoop f target et tol fuel a altA b altB = some t_ →
    a ≤ t_ ∧ t_ ≤ b := by
  intro fuel
  induction fuel with
  | zero =>
    intro a b altA altB t_ _ h
    simp [bisectLoop] at h
  | succ n ih =>
    intro a b altA altB t_ hab h
    have hq0 : 0 ≤ Int.tdiv (b - a) 2 := Int.tdiv_nonneg (by omega) (by omega)
    have hq1 : Int.tdiv (b - a) 2 ≤ b - a := by
      rw [Int.tdiv_eq_ediv (by omega) (by omega)]
      exact Int.ediv_le_self _ (by omega)
    simp only [bisectLoop] at h
    by_cases hc : tol < b - a
    · rw [if_pos hc] at h
      by_cases hx : hasCrossing altA (f (a + Int.tdiv (b - a) 2) - target) et
      · rw [if_pos hx] at h
        have := ih a (a + Int.tdiv (b - a) 2) altA
          (f (a + Int.tdiv (b - a) 2) - target) t_ (by omega) h
        omega
      · rw [if_neg hx] at h
        have := ih (a + Int.tdiv (b - a) 2) b
          (f (a + Int.tdiv (b - a) 2) - target) altB t_ (by omega) h
        omega
    · rw [if_neg hc] at h
      have ht : t_ = a + Int.tdiv (b - a) 2 := by
        exact Option.some_injective _ h.symm
      omega

/-- With a tolerance of at least one nanosecond, the bisection loop
terminates on any fuel exceeding the bracket width, returning the
midpoint of a final bracket of width at most the tolerance that is
contained in the initial bracket. -/
lemma bisectLoop_terminates (htol : 1 ≤ tol) :
    ∀ (w : ℕ) (a b : ℤ) (altA altB : ℚ) (fuel : ℕ),
    a ≤ b → (b - a).toNat ≤ w → w < fuel →
    ∃ a' b', a ≤ a' ∧ a' ≤ b' ∧ b' ≤ b ∧ b' - a' ≤ tol ∧
      bisectLoop f target et tol fuel a altA b altB =
        some (a' + Int.tdiv (b' - a') 2) := by
  intro w
  induction w using Nat.strong_induction_on with
  | _ w ih =>
    intro a b altA altB fuel hab hw hfuel
    obtain ⟨fuel', rfl⟩ : ∃ k, fuel = k + 1 := ⟨fuel - 1, by omega⟩
    simp only [bisectLoop]
    by_cases hc : tol < b - a
    · rw [if_pos hc]
      have h2 : 2 ≤ b - a := by omega
      have hq1 : 1 ≤ Int.tdiv (b - a) 2 ∧ Int.tdiv (b - a) 2 ≤ b - a - 1 := by
        rw [Int.tdiv_eq_ediv (by omega) (by omega)]
        omega
      by_cases hx : hasCrossing altA (f (a + Int.tdiv (b - a) 2) - target) et
      · rw [if_pos hx]
        obtain ⟨a', b', h1, h2', h3, h4, h5⟩ :=
          ih (a + Int.tdiv (b - a) 2 - a).toNat (by omega)
            a (a + Int.tdiv (b - a) 2) altA
            (f (a + Int.tdiv (b - a) 2) - target) fuel' (by omega) (by omega)
            (by omega)
        exact ⟨a', b', h1, h2', by omega, h4, h5⟩
      · rw [if_neg hx]
        obtain ⟨a', b', h1, h2', h3, h4, h5⟩ :=
          ih (b - (a + Int.tdiv (b - a) 2)).toNat (by omega)
            (a + Int.tdiv (b - a) 2) b
            (f (a + Int.tdiv (b - a) 2) - target) altB fuel' (by omega) (by omega)
            (by omega)
        exact ⟨a', b', by omega, h2', h3, h4, h5⟩
    · rw [if_neg hc]
      exact ⟨a, b, le_refl a, hab, le_refl b, by omega, rfl⟩

/-- If no consecutive sample pair from index `i` on brackets a crossing,
the sampling loop returns `Result{OK:false}`. -/
lemma scanLoop_notFound (bfuel : ℕ) (start interval : ℤ) :
    ∀ (rem i : ℕ) (prevT : ℤ) (prevAlt : ℚ),
    1 ≤ i →
    prevT = start + ((i : ℤ) - 1) * interval →
    prevAlt = f prevT - target →
    (∀ k : ℕ, i ≤ k → k < i + rem →
      hasCrossing (f (start + ((k : ℤ) - 1) * interval) - target)
        (f (start + (k : ℤ) * interval) - target) et = false) →
    scanLoop f target et tol bfuel start interval i rem prevT prevAlt =
      some notFound := by
  intro rem
  induction rem with
  | zero => intro i prevT prevAlt _ _ _ _; rfl
  | succ n ih =>
    intro i prevT prevAlt hi hT hA hno
    have hk := hno i (le_refl i) (by omega)
    rw [hT] at hA
    simp only [scanLoop]
    rw [hA, if_neg (by rw [hk]; simp)]
    exact ih (i + 1) _ _ (by omega) (by push_cast; ring) rfl
      (fun k h1 h2 => hno k (by omega) (by omega))

/-- If sample pair `(j-1, j)` is the chronologically first bracket, the
sampling loop hands exactly that bracket to `bisect`. -/
lemma scanLoop_first (bfuel : ℕ) (start interval : ℤ) :
    ∀ (rem i j : ℕ) (prevT : ℤ) (prevAlt : ℚ),
    1 ≤ i → i ≤ j → j < i + rem →
    prevT = start + ((i : ℤ) - 1) * interval →
    prevAlt = f prevT - target →
    hasCrossing (f (start + ((j : ℤ) - 1) * interval) - target)
      (f (start + (j : ℤ) * interval) - target) et = true →
    (∀ k : ℕ, i ≤ k → k < j →
      hasCrossing (f (start + ((k : ℤ) - 1) * interval) - target)
        (f (start + (k : ℤ) * interval) - target) et = false) →
    scanLoop f target et tol bfuel start interval i rem prevT prevAlt =
      bisect f target et tol bfuel (start + ((j : ℤ) - 1) * interval)
        (start + (j : ℤ) * interval) := by
  intro rem
  induction rem with
  | zero => intro i j prevT prevAlt _ h1 h2; omega
  | succ n ih =>
    intro i j prevT prevAlt hi hij hjn hT hA hyes hno
    rw [hT] at hA
    simp only [scanLoop]
    by_cases hji : j = i
    · subst hji
      rw [hA, if_pos (by rw [hyes]), hT]
    · have hk := hno i (le_refl i) (by omega)
      rw [hA, if_neg (by rw [hk]; simp)]
      exact ih (i + 1) j _ _ (by omega) (by omega) (by omega)
        (by push_cast; ring) rfl hyes
        (fun k h1 h2 => hno k (by omega) h2)

end SolverLemmas

/-- The clamped step count is at least 2. -/
lemma clampSteps_ge (steps0 : ℤ) : 2 ≤ clampSteps steps0 := by
  unfold clampSteps; split <;> omega

/-- The sampling interval is nonnegative on a proper window. -/
lemma sampleInterval_nonneg (start end_ steps0 : ℤ) (hw : start ≤ end_) :
    0 ≤ sampleInterval start end_ steps0 := by
  have := clampSteps_ge steps0
  exact Int.tdiv_nonneg (by omega) (by omega)

/-- The sampling interval does not exceed the window width. -/
lemma sampleInterval_le (start end_ steps0 : ℤ) (hw : start ≤ end_) :
    sampleInterval start end_ steps0 ≤ end_ - start := by
  have := clampSteps_ge steps0
  unfold sampleInterval
  rw [Int.tdiv_eq_ediv (by omega) (by omega)]
  exact Int.ediv_le_self _ (by omega)

/-- `steps - 1` sampling intervals do not overshoot the window. -/
lemma sampleInterval_mul_le (start end_ steps0 : ℤ) (hw : start ≤ end_) :
    (clampSteps steps0 - 1) * sampleInterval start end_ steps0 ≤ end_ - start := by
  have h2 := clampSteps_ge steps0
  unfold sampleInterval
  rw [Int.tdiv_eq_ediv (by omega) (by omega)]
  have h := Int.ediv_add_emod (end_ - start) (clampSteps steps0 - 1)
  have h3 := Int.emod_nonneg (end_ - start) (show clampSteps steps0 - 1 ≠ 0 by omega)
  omega

/-- On a proper window, if sample pair `(j-1, j)` is the chronologically
first bracket, `FindAltitudeEventFuel` refines exactly that bracket by
bisection (later brackets are ignored). -/
lemma findFuel_eq_bisect_of_first (bfuel : ℕ) (f : ℤ → ℚ) (start end_ : ℤ)
    (target : ℚ) (et : EventType) (steps0 tol : ℤ) (j : ℕ)
    (hw : start < end_) (hj1 : 1 ≤ j)
    (hj2 : (j : ℤ) ≤ clampSteps steps0 - 1)
    (hyes : hasCrossing
      (f (start + ((j : ℤ) - 1) * sampleInterval start end_ steps0) - target)
      (f (start + (j : ℤ) * sampleInterval start end_ steps0) - target) et = true)
    (hno : ∀ k : ℕ, 1 ≤ k → k < j →
      hasCrossing
        (f (start + ((k : ℤ) - 1) * sampleInterval start end_ steps0) - target)
        (f (start + (k : ℤ) * sampleInterval start end_ steps0) - target) et = false) :
    FindAltitudeEventFuel bfuel f start end_ target et steps0 tol =
      bisect f target et tol bfuel
        (start + ((j : ℤ) - 1) * sampleInterval start end_ steps0)
        (start + (j : ℤ) * sampleInterval start end_ steps0) := by
  have h2 := clampSteps_ge steps0
  unfold FindAltitudeEventFuel
  rw [if_pos hw]
  exact scanLoop_first f target et tol bfuel start _ _ 1 j start _ (le_refl 1) hj1
    (by omega) (by ring) (by norm_num) hyes (fun k hk1 hk2 => hno k hk1 hk2)

/-- On a proper window with no bracketing sample pair,
`FindAltitudeEventFuel` returns `Result{OK:false}`. -/
lemma findFuel_eq_notFound_of_none (bfuel : ℕ) (f : ℤ → ℚ) (start end_ : ℤ)
    (target : ℚ) (et : EventType) (steps0 tol : ℤ)
    (hw : start < end_)
    (hno : ∀ k : ℕ, 1 ≤ k → (k : ℤ) ≤ clampSteps steps0 - 1 →
      hasCrossing
        (f (start + ((k : ℤ) - 1) * sampleInterval start end_ steps0) - target)
        (f (start + (k : ℤ) * sampleInterval start end_ steps0) - target) et = false) :
    FindAltitudeEventFuel bfuel f start end_ target et steps0 tol = some notFound := by
  have h2 := clampSteps_ge steps0
  unfold FindAltitudeEventFuel
  rw [if_pos hw]
  exact scanLoop_notFound f target et tol bfuel start _ _ 1 start _ (le_refl 1)
    (by ring) (by norm_num) (fun k hk1 hk2 => hno k hk1 (by omega))

/-- On a proper window, `FindAltitudeEventFuel` either finds no bracket
and returns `Result{OK:false}`, or hands the chronologically first
bracket to `bisect`. -/
lemma findFuel_cases (bfuel : ℕ) (f : ℤ → ℚ) (start end_ : ℤ)
    (target : ℚ) (et : EventType) (steps0 tol : ℤ) (hw : start < end_) :
    FindAltitudeEventFuel bfuel f start end_ target et steps0 tol = some notFound ∨
    ∃ j : ℕ, 1 ≤ j ∧ (j : ℤ) ≤ clampSteps steps0 - 1 ∧
      FindAltitudeEventFuel bfuel f start end_ target et steps0 tol =
        bisect f target et tol bfuel
          (start + ((j : ℤ) - 1) * sampleInterval start end_ steps0)
          (start + (j : ℤ) * sampleInterval start end_ steps0) := by
  by_cases hex : ∃ k : ℕ, 1 ≤ k ∧ (k : ℤ) ≤ clampSteps steps0 - 1 ∧
      hasCrossing
        (f (start + ((k : ℤ) - 1) * sampleInterval start end_ steps0) - target)
        (f (start + (k : ℤ) * sampleInterval start end_ steps0) - target) et = true
  · right
    have hj := Nat.find_spec hex
    refine ⟨Nat.find hex, hj.1, hj.2.1, ?_⟩
    refine findFuel_eq_bisect_of_first bfuel f start end_ target et steps0 tol _
      hw hj.1 hj.2.1 hj.2.2 (fun k hk1 hk2 => ?_)
    have hmin := Nat.find_min hex hk2
    have : ¬ (1 ≤ k ∧ (k : ℤ) ≤ clampSteps steps0 - 1 ∧
        hasCrossing
          (f (start + ((k : ℤ) - 1) * sampleInterval start end_ steps0) - target)
          (f (start + (k : ℤ) * sampleInterval start end_ steps0) - target) et = true) := hmin
    have hk2' : (k : ℤ) ≤ clampSteps steps0 - 1 := by
      have := hj.2.1; omega
    cases hcr : hasCrossing
        (f (start + ((k : ℤ) - 1) * sampleInterval start end_ steps0) - target)
        (f (start + (k : ℤ) * sampleInterval start end_ steps0) - target) et with
    | false => rfl
    | true => exact absurd ⟨hk1, hk2', hcr⟩ this
  · left
    push_neg at hex
    refine findFuel_eq_notFound_of_none bfuel f start end_ target et steps0 tol hw
      (fun k hk1 hk2 => ?_)
    cases hcr : hasCrossing
        (f (start + ((k : ℤ) - 1) * sampleInterval start end_ steps0) - target)
        (f (start + (k : ℤ) * sampleInterval start end_ steps0) - target) et with
    | false => rfl
    | true => exact absurd hcr (hex k hk1 hk2)

/-- `Result{OK:false}` has `OK = false`. -/
lemma notFound_ok : notFound.ok = false := rfl

/-- With tolerance 0, the bisection loop is stuck forever on the
width-1 bracket `[1, 2]` of the step function (the midpoint equals the
left endpoint and no sign condition ever moves an endpoint). -/
lemma bisectLoop_stuck_one :
    ∀ n : ℕ, bisectLoop (fun t => if t < 2 then (-1 : ℚ) else 1) 0 .up 0 n
      1 (-1) 2 1 = none := by
  intro n
  induction n with
  | zero => rfl
  | succ k ih =>
    simp only [bisectLoop]
    have h1 : (1 : ℤ) + Int.tdiv (2 - 1) 2 = 1 := by decide
    rw [h1]
    norm_num [hasCrossing]
    exact ih

/-- With tolerance 0, the bisection loop started on the bracket `[0, 2]`
of the step function reaches the stuck width-1 bracket and never
returns. -/
lemma bisectLoop_stuck_zero :
    ∀ n : ℕ, bisectLoop (fun t => if t < 2 then (-1 : ℚ) else 1) 0 .up 0 n
      0 (-1) 2 1 = none := by
  intro n
  cases n with
  | zero => rfl
  | succ k =>
    simp only [bisectLoop]
    have h1 : (0 : ℤ) + Int.tdiv (2 - 0) 2 = 1 := by decide
    rw [h1]
    norm_num [hasCrossing]
    exact bisectLoop_stuck_one k

/-- C3: a rising bracket between consecutive samples is detected exactly
when the earlier value of `altitude - target` is strictly negative and
the later one is `≥ 0`; a setting bracket exactly when the earlier value
is strictly positive and the later one is `≤ 0`; and the chronologically
first bracket in the window is the one handed to bisection (all later
brackets are ignored). -/
theorem c3_bracket_detection_and_first_bracket :
    (∀ a1 a2 : ℚ,
      (hasCrossing a1 a2 .up = true ↔ a1 < 0 ∧ 0 ≤ a2) ∧
      (hasCrossing a1 a2 .down = true ↔ 0 < a1 ∧ a2 ≤ 0)) ∧
    ∀ (bfuel : ℕ) (f : ℤ → ℚ) (start end_ : ℤ) (target : ℚ)
      (et : EventType) (steps0 tol : ℤ) (j : ℕ),
      start < end_ → 1 ≤ j → (j : ℤ) ≤ clampSteps steps0 - 1 →
      hasCrossing
        (sampleVal f target start (sampleInterval start end_ steps0) (j - 1))
        (sampleVal f target start (sampleInterval start end_ steps0) j) et = true →
      (∀ k : ℕ, 1 ≤ k → k < j →
        hasCrossing
          (sampleVal f target start (sampleInterval start end_ steps0) (k - 1))
          (sampleVal f target start (sampleInterval start end_ steps0) k) et = false) →
      FindAltitudeEventFuel bfuel f start end_ target et steps0 tol =
        bisect f target et tol bfuel
          (start + ((j : ℤ) - 1) * sampleInterval start end_ steps0)
          (start + (j : ℤ) * sampleInterval start end_ steps0) := by
  constructor
  · intro a1 a2
    constructor <;> simp [hasCrossing]
  · intro bfuel f start end_ target et steps0 tol j hw hj1 hj2 hyes hno
    simp only [sampleVal] at hyes
    rw [show ((j - 1 : ℕ) : ℤ) = (j : ℤ) - 1 by omega] at hyes
    refine findFuel_eq_bisect_of_first bfuel f start end_ target et steps0 tol j
      hw hj1 hj2 hyes (fun k hk1 hk2 => ?_)
    have h := hno k hk1 hk2
    simp only [sampleVal] at h
    rwa [show ((k - 1 : ℕ) : ℤ) = (k : ℤ) - 1 by omega] at h

/-- Witness for C3 at a concrete linear altitude function on the window
`[0, 10]` with 3 samples: the bracket between samples 0 and 1 is the
first one, and the solver refines exactly that bracket. -/
theorem c3_witness :
    FindAltitudeEventFuel 11 (fun t => (t : ℚ) - 5) 0 10 0 .up 3 1 =
      bisect (fun t => (t : ℚ) - 5) 0 .up 1 11
        (0 + ((1 : ℤ) - 1) * sampleInterval 0 10 3)
        (0 + (1 : ℤ) * sampleInterval 0 10 3) :=
  c3_bracket_detection_and_first_bracket.2 11 (fun t => (t : ℚ) - 5) 0 10 0 .up
    3 1 1 (by decide) (by decide) (by decide) (by with_unfolding_all rfl)
    (fun k hk1 hk2 => absurd hk2 (by omega))

/-- C4 counterexample: the claim quantifies over every tolerance, but
with tolerance 0 (legal: `tol` is a plain `time.Duration`) the call does
not terminate — on a step altitude function over the window `[0, 2]`
(nanoseconds) the bisection loop reaches a width-1 bracket whose
midpoint equals its left endpoint and loops forever, so no amount of
fuel makes the embedded call return. -/
theorem c4_zero_tolerance_diverges :
    NeverReturns (fun t => if t < 2 then (-1 : ℚ) else 1) 0 2 0 .up 2 0 := by
  intro bfuel
  unfold FindAltitudeEventFuel
  rw [if_pos (by decide : (0 : ℤ) < 2)]
  have h1 : (clampSteps 2 - 1).toNat = 1 := by decide
  have h2 : sampleInterval 0 2 2 = 2 := by decide
  rw [h1, h2]
  simp only [scanLoop]
  have hc : hasCrossing ((if (0 : ℤ) < 2 then (-1 : ℚ) else 1) - 0)
      ((if ((0 : ℤ) + (1 : ℕ) * 2) < 2 then (-1 : ℚ) else 1) - 0) .up = true := by
    norm_num [hasCrossing]
  rw [if_pos hc]
  simp only [bisect]
  rw [if_pos hc]
  norm_num
  rw [bisectLoop_stuck_zero bfuel]

/-- C4 (amended): provided the tolerance is positive (at least one
nanosecond), every call to `FindAltitudeEvent` terminates — the
bracketing scan is structurally bounded by the sample count and the
bisection returns — and whenever a bracket was found the reported time
is the midpoint of a final bracket whose width is at most the
tolerance. -/
theorem c4_positive_tolerance_terminates (f : ℤ → ℚ) (start end_ : ℤ)
    (target : ℚ) (et : EventType) (steps0 tol : ℤ) (htol : 1 ≤ tol) :
    ∃ r : Result, FindAltitudeEvent f start end_ target et steps0 tol = some r ∧
      (r.ok = true → ∃ a b : ℤ, a ≤ b ∧ b - a ≤ tol ∧
        r.time = a + Int.tdiv (b - a) 2) := by
  unfold FindAltitudeEvent
  by_cases hw : start < end_
  · rcases findFuel_cases ((end_ - start).toNat + 1) f start end_ target et steps0
      tol hw with hnf | ⟨j, hj1, hj2, heq⟩
    · exact ⟨notFound, hnf, fun hok => by simp [notFound] at hok⟩
    · rw [heq]
      simp only [bisect]
      have hI : 0 ≤ sampleInterval start end_ steps0 :=
        sampleInterval_nonneg start end_ steps0 (le_of_lt hw)
      have hIle : sampleInterval start end_ steps0 ≤ end_ - start :=
        sampleInterval_le start end_ steps0 (le_of_lt hw)
      set A := start + ((j : ℤ) - 1) * sampleInterval start end_ steps0 with hA
      set B := start + (j : ℤ) * sampleInterval start end_ steps0 with hB
      have hBA : B - A = sampleInterval start end_ steps0 := by rw [hA, hB]; ring
      by_cases hx : hasCrossing (f A - target) (f B - target) et = true
      · rw [if_pos hx]
        obtain ⟨a', b', h1, h2, h3, h4, h5⟩ :=
          bisectLoop_terminates f target et tol htol (B - A).toNat A B
            (f A - target) (f B - target) ((end_ - start).toNat + 1)
            (by omega) (le_refl _) (by omega)
        rw [h5]
        exact ⟨⟨a' + Int.tdiv (b' - a') 2, true⟩, rfl, fun _ => ⟨a', b', h2, h4, rfl⟩⟩
      · rw [if_neg hx]
        exact ⟨notFound, rfl, fun hok => by simp [notFound] at hok⟩
  · unfold FindAltitudeEventFuel
    rw [if_neg hw]
    exact ⟨notFound, rfl, fun hok => by simp [notFound] at hok⟩

/-- Witness for the amended C4 at tolerance 1 on a concrete linear
altitude function. -/
theorem c4_witness :
    (1 : ℤ) ≤ 1 ∧
    ∃ r : Result,
      FindAltitudeEvent (fun t => (t : ℚ) - 5) 0 10 0 .up 3 1 = some r ∧
      (r.ok = true → ∃ a b : ℤ, a ≤ b ∧ b - a ≤ 1 ∧
        r.time = a + Int.tdiv (b - a) 2) :=
  ⟨by decide,
    c4_positive_tolerance_terminates (fun t => (t : ℚ) - 5) 0 10 0 .up 3 1
      (by decide)⟩

/-- C5: `FindAltitudeEvent` reports `OK=false` — never an error and
never a panic (the embedded function is total into `Result`) — both when
the window is degenerate (`start ≥ end`) and when no pair of consecutive
samples brackets a crossing of the requested direction; and a sample
count below 2 is clamped up to 2, making the call identical to one with
`steps = 2`. -/
theorem c5_degenerate_and_no_bracket :
    ∀ (f : ℤ → ℚ) (start end_ : ℤ) (target : ℚ) (et : EventType)
      (steps0 tol : ℤ),
      (end_ ≤ start →
        FindAltitudeEvent f start end_ target et steps0 tol = some notFound) ∧
      (start < end_ →
        (∀ k : ℕ, 1 ≤ k → (k : ℤ) ≤ clampSteps steps0 - 1 →
          hasCrossing
            (sampleVal f target start (sampleInterval start end_ steps0) (k - 1))
            (sampleVal f target start (sampleInterval start end_ steps0) k) et
            = false) →
        FindAltitudeEvent f start end_ target et steps0 tol = some notFound) ∧
      (steps0 < 2 →
        FindAltitudeEvent f start end_ target et steps0 tol =
          FindAltitudeEvent f start end_ target et 2 tol) := by
  intro f start end_ target et steps0 tol
  refine ⟨fun hw => ?_, fun hw hno => ?_, fun hclamp => ?_⟩
  · unfold FindAltitudeEvent FindAltitudeEventFuel
    rw [if_neg (by omega)]
  · refine findFuel_eq_notFound_of_none _ f start end_ target et steps0 tol hw
      (fun k hk1 hk2 => ?_)
    have h := hno k hk1 hk2
    simp only [sampleVal] at h
    rwa [show ((k - 1 : ℕ) : ℤ) = (k : ℤ) - 1 by omega] at h
  · have h1 : clampSteps steps0 = clampSteps 2 := by
      unfold clampSteps
      rw [if_pos hclamp, if_neg (by omega)]
    simp only [FindAltitudeEvent, FindAltitudeEventFuel, sampleInterval, h1]

/-- Witness for C5: a reversed window, a constant function that never
crosses, and a clamped sample count, each at concrete inputs. -/
theorem c5_witness :
    FindAltitudeEvent (fun _ => (0 : ℚ)) 5 3 0 .up 2 1 = some notFound ∧
    FindAltitudeEvent (fun _ => (1 : ℚ)) 0 10 0 .up 3 1 = some notFound ∧
    FindAltitudeEvent (fun _ => (0 : ℚ)) 0 10 0 .up 0 1 =
      FindAltitudeEvent (fun _ => (0 : ℚ)) 0 10 0 .up 2 1 :=
  ⟨(c5_degenerate_and_no_bracket (fun _ => (0 : ℚ)) 5 3 0 .up 2 1).1 (by decide),
   (c5_degenerate_and_no_bracket (fun _ => (1 : ℚ)) 0 10 0 .up 3 1).2.1
     (by decide) (fun k hk1 hk2 => by with_unfolding_all rfl),
   (c5_degenerate_and_no_bracket (fun _ => (0 : ℚ)) 0 10 0 .up 0 1).2.2
     (by decide)⟩

/-- C10: whenever the solver reports `OK=true`, the returned event time
lies inside the closed search window `[start, end]`, for any bisection
fuel. -/
theorem c10_result_within_window (bfuel : ℕ) (f : ℤ → ℚ) (start end_ : ℤ)
    (target : ℚ) (et : EventType) (steps0 tol : ℤ) (r : Result)
    (h : FindAltitudeEventFuel bfuel f start end_ target et steps0 tol = some r)
    (hok : r.ok = true) :
    start ≤ r.time ∧ r.time ≤ end_ := by
  by_cases hw : start < end_
  · rcases findFuel_cases bfuel f start end_ target et steps0 tol hw
      with hnf | ⟨j, hj1, hj2, heq⟩
    · rw [hnf] at h
      have := Option.some_injective _ h
      rw [← this] at hok
      simp [notFound] at hok
    · rw [heq] at h
      simp only [bisect] at h
      have hI : 0 ≤ sampleInterval start end_ steps0 :=
        sampleInterval_nonneg start end_ steps0 (le_of_lt hw)
      have hmul : (clampSteps steps0 - 1) * sampleInterval start end_ steps0 ≤
          end_ - start :=
        sampleInterval_mul_le start end_ steps0 (le_of_lt hw)
      set A := start + ((j : ℤ) - 1) * sampleInterval start end_ steps0 with hA
      set B := start + (j : ℤ) * sampleInterval start end_ steps0 with hB
      have hBA : B - A = sampleInterval start end_ steps0 := by rw [hA, hB]; ring
      have hjmul : (j : ℤ) * sampleInterval start end_ steps0 ≤
          (clampSteps steps0 - 1) * sampleInterval start end_ steps0 :=
        mul_le_mul_of_nonneg_right hj2 hI
      have hAlow : start ≤ A := by
        rw [hA]
        have : 0 ≤ ((j : ℤ) - 1) * sampleInterval start end_ steps0 :=
          mul_nonneg (by omega) hI
        omega
      have hBhigh : B ≤ end_ := by
        rw [hB]; omega
      by_cases hx : hasCrossing (f A - target) (f B - target) et = true
      · rw [if_pos hx] at h
        cases hbl : bisectLoop f target et tol bfuel A (f A - target) B
            (f B - target) with
        | none => rw [hbl] at h; simp at h
        | some t_ =>
          rw [hbl] at h
          simp only [Option.map_some'] at h
          have hrt := Option.some_injective _ h
          have hmem := bisectLoop_mem f target et tol bfuel A B
            (f A - target) (f B - target) t_ (by omega) hbl
          rw [← hrt]
          constructor <;> simp <;> omega
      · rw [if_neg hx] at h
        have := Option.some_injective _ h
        rw [← this] at hok
        simp [notFound] at hok
  · unfold FindAltitudeEventFuel at h
    rw [if_neg hw] at h
    have := Option.some_injective _ h
    rw [← this] at hok
    simp [notFound] at hok

/-- Witness for C10: a concrete run that reports `OK=true` at time 4 in
the window `[0, 10]`. -/
theorem c10_witness :
    FindAltitudeEventFuel 11 (fun t => (t : ℚ) - 5) 0 10 0 .up 3 1 =
      some ⟨4, true⟩ ∧
    (0 : ℤ) ≤ (4 : ℤ) ∧ (4 : ℤ) ≤ 10 :=
  ⟨by with_unfolding_all rfl,
    c10_result_within_window 11 (fun t => (t : ℚ) - 5) 0 10 0 .up 3 1 ⟨4, true⟩
      (by with_unfolding_all rfl) rfl⟩

end Solver

/-! ## Claims about the Moon horizon constants -/

namespace Moon

/-- C1 (code-bug evidence): the claim — and the function's own comments
("when the Moon is closer ... we allow the center to sit slightly
lower") — require the horizon to be strictly below −0.90° for a Moon
closer than the mean distance, but the code computes
`base - kScale*frac`, which at distance 380000 km (closer than the mean
384400 km) yields a horizon strictly ABOVE −0.90°, exactly
`-0.90 + 0.6*(4400/384400)`.  The magnitude (0.6° per unit fractional
deviation) is as claimed; the sign is flipped. -/
theorem c1_closer_moon_gets_higher_horizon :
    (0 : ℚ) < 380000 ∧ (380000 : ℚ) < 384400 ∧
    ApparentHorizonAltitudeMoon 380000 > -0.90 ∧
    ApparentHorizonAltitudeMoon 380000 = -0.90 + 0.6 * (4400 / 384400) := by
  refine ⟨by norm_num, by norm_num, ?_, ?_⟩ <;>
  · unfold ApparentHorizonAltitudeMoon
    rw [if_neg (by norm_num)]
    norm_num

/-- C2 counterexample: the claim says
`altFuncSet(t) = altFuncRise(t) + 0.16`, but at a concrete instant
(altitude model ≡ 0, distance model ≡ mean distance) the set function
evaluates to 0.74 while the claimed value is 1.06. -/
theorem c2_counterexample_set_is_below_rise :
    altFuncSet (fun _ => 0) (fun _ => 384400) 0 ≠
      altFuncRise (fun _ => 0) (fun _ => 384400) 0 + 0.16 := by
  unfold altFuncSet altFuncRise ApparentHorizonAltitudeMoon moonSetExtraDropDeg
  norm_num

/-- C2 (amended): the set-detection altitude function uses a horizon
RAISED by the fixed 0.16° (the Go code adds `moonSetExtraDropDeg` to the
horizon so the Moon "sets" slightly earlier), hence
`altFuncSet(t) = altFuncRise(t) - 0.16` for every instant and every
altitude/distance model. -/
theorem c2_set_horizon_raised_by_extra_drop :
    ∀ (alt dist : ℤ → ℚ) (t : ℤ),
      altFuncSet alt dist t = altFuncRise alt dist t - moonSetExtraDropDeg := by
  intro alt dist t
  unfold altFuncSet altFuncRise
  ring

end Moon

/-! ## Claims about the orchestrator wrappers -/

namespace Orchestrator

/-- The two rise/set wrappers have literally the same body. -/
lemma moonRiseSet_eq_sunRiseSet : moonRiseSet = sunRiseSet := rfl

/-- Field description of a successful wrapper result. -/
lemma sunRiseSet_ok_fields (toLocal : CivilTime → CivilTime) (y m d : ℤ)
    (riseUTC setUTC : CivilTime) (okRise okSet : Bool) (out : RiseSetOut)
    (h : sunRiseSet toLocal y m d riseUTC setUTC okRise okSet = .ok out) :
    out.rise = (if okRise then some (withLocalDate (toLocal riseUTC) y m d)
      else none) ∧
    out.set = (if okSet then some (withLocalDate (toLocal setUTC) y m d)
      else none) := by
  cases okRise <;> cases okSet <;> simp [sunRiseSet] at h <;> simp [← h]

/-- C6: `RiseSetFor` (Sun or Moon) surfaces `ErrNoRiseNoSet` exactly when
neither a rise nor a set crossing was found in the local day; when at
least one was found it succeeds, with each found event populated
independently and the other left absent — never a silent default. -/
theorem c6_no_rise_or_set_error (toLocal : CivilTime → CivilTime) (y m d : ℤ)
    (riseUTC setUTC : CivilTime) (okRise okSet : Bool) :
    (moonRiseSet toLocal y m d riseUTC setUTC okRise okSet =
        .error .noRiseNoSet ↔ okRise = false ∧ okSet = false) ∧
    (sunRiseSet toLocal y m d riseUTC setUTC okRise okSet =
        .error .noRiseNoSet ↔ okRise = false ∧ okSet = false) ∧
    (okRise = true ∨ okSet = true →
      ∃ out : RiseSetOut,
        moonRiseSet toLocal y m d riseUTC setUTC okRise okSet = .ok out ∧
        out.rise.isSome = okRise ∧ out.set.isSome = okSet) ∧
    (okRise = true ∨ okSet = true →
      ∃ out : RiseSetOut,
        sunRiseSet toLocal y m d riseUTC setUTC okRise okSet = .ok out ∧
        out.rise.isSome = okRise ∧ out.set.isSome = okSet) := by
  refine ⟨?_, ?_, ?_, ?_⟩ <;>
    cases okRise <;> cases okSet <;>
    simp [moonRiseSet, sunRiseSet]

/-- Witness for C6: one event found (rise only) yields success with only
the rise populated, for both bodies. -/
theorem c6_witness :
    (∃ out : RiseSetOut,
      moonRiseSet id 2025 11 30 ⟨2025, 12, 1, 7, 13, 0, 0⟩
        ⟨2025, 12, 1, 17, 21, 0, 0⟩ true false = .ok out ∧
      out.rise.isSome = true ∧ out.set.isSome = false) ∧
    (∃ out : RiseSetOut,
      sunRiseSet id 2025 11 30 ⟨2025, 12, 1, 7, 13, 0, 0⟩
        ⟨2025, 12, 1, 17, 21, 0, 0⟩ true false = .ok out ∧
      out.rise.isSome = true ∧ out.set.isSome = false) :=
  ⟨(c6_no_rise_or_set_error id 2025 11 30 ⟨2025, 12, 1, 7, 13, 0, 0⟩
      ⟨2025, 12, 1, 17, 21, 0, 0⟩ true false).2.2.1 (Or.inl rfl),
   (c6_no_rise_or_set_error id 2025 11 30 ⟨2025, 12, 1, 7, 13, 0, 0⟩
      ⟨2025, 12, 1, 17, 21, 0, 0⟩ true false).2.2.2 (Or.inl rfl)⟩

/-- On canonical clock fields the `time.Date` rebuild performs no carry:
the date is exactly the requested one and the clock is kept. -/
lemma withLocalDate_eq (t : CivilTime) (y m d : ℤ) (h : clockInRange t) :
    withLocalDate t y m d = ⟨y, m, d, t.hour, t.minute, t.second, t.nano⟩ := by
  obtain ⟨h1, h2, h3, h4, h5, h6, h7, h8⟩ := h
  have e1 : Int.fdiv t.nano 1000000000 = 0 := by
    rw [Int.fdiv_eq_ediv _ (by norm_num)]; omega
  have e2 : Int.fmod t.nano 1000000000 = t.nano := by
    rw [Int.fmod_eq_emod _ (by norm_num)]; omega
  have e3 : Int.fdiv t.second 60 = 0 := by
    rw [Int.fdiv_eq_ediv _ (by norm_num)]; omega
  have e4 : Int.fmod t.second 60 = t.second := by
    rw [Int.fmod_eq_emod _ (by norm_num)]; omega
  have e5 : Int.fdiv t.minute 60 = 0 := by
    rw [Int.fdiv_eq_ediv _ (by norm_num)]; omega
  have e6 : Int.fmod t.minute 60 = t.minute := by
    rw [Int.fmod_eq_emod _ (by norm_num)]; omega
  have e7 : Int.fdiv t.hour 24 = 0 := by
    rw [Int.fdiv_eq_ediv _ (by norm_num)]; omega
  have e8 : Int.fmod t.hour 24 = t.hour := by
    rw [Int.fmod_eq_emod _ (by norm_num)]; omega
  simp only [withLocalDate, timeDate, e1, e2, e3, e4, e5, e6, e7, e8, add_zero]

/-- C9: every found rise/set event returned to the caller, after the
timezone conversion `toLocal`, is pinned so that its calendar date is
exactly the originally requested `(y, m, d)` while its clock time is the
one produced by the timezone conversion.  (`TwilightFor`,
`GoldenHourFor` and `BlueHourFor` run every found event through the same
`withLocalDate` pinning.) -/
theorem c9_pinned_to_requested_date (toLocal : CivilTime → CivilTime)
    (y m d : ℤ) (riseUTC setUTC : CivilTime) (okRise okSet : Bool)
    (out : RiseSetOut) (r s : CivilTime)
    (hr : clockInRange (toLocal riseUTC)) (hs : clockInRange (toLocal setUTC))
    (hok : sunRiseSet toLocal y m d riseUTC setUTC okRise okSet = .ok out ∨
      moonRiseSet toLocal y m d riseUTC setUTC okRise okSet = .ok out) :
    (out.rise = some r → r.year = y ∧ r.month = m ∧ r.day = d ∧
      r.hour = (toLocal riseUTC).hour ∧ r.minute = (toLocal riseUTC).minute ∧
      r.second = (toLocal riseUTC).second ∧ r.nano = (toLocal riseUTC).nano) ∧
    (out.set = some s → s.year = y ∧ s.month = m ∧ s.day = d ∧
      s.hour = (toLocal setUTC).hour ∧ s.minute = (toLocal setUTC).minute ∧
      s.second = (toLocal setUTC).second ∧ s.nano = (toLocal setUTC).nano) := by
  have h : sunRiseSet toLocal y m d riseUTC setUTC okRise okSet = .ok out := by
    rcases hok with h | h
    · exact h
    · rw [moonRiseSet_eq_sunRiseSet] at h; exact h
  obtain ⟨hrise, hset⟩ := sunRiseSet_ok_fields toLocal y m d riseUTC setUTC
    okRise okSet out h
  constructor
  · intro hr'
    rw [hrise] at hr'
    cases okRise with
    | false => simp at hr'
    | true =>
      simp only [if_pos rfl] at hr'
      have := Option.some_injective _ hr'
      rw [withLocalDate_eq _ _ _ _ hr] at this
      rw [← this]
      exact ⟨rfl, rfl, rfl, rfl, rfl, rfl, rfl⟩
  · intro hs'
    rw [hset] at hs'
    cases okSet with
    | false => simp at hs'
    | true =>
      simp only [if_pos rfl] at hs'
      have := Option.some_injective _ hs'
      rw [withLocalDate_eq _ _ _ _ hs] at this
      rw [← this]
      exact ⟨rfl, rfl, rfl, rfl, rfl, rfl, rfl⟩

/-- Witness for C9: both events found at concrete times on 2025-12-01
local clock, pinned back to the requested 2025-11-30 with the clock
preserved. -/
theorem c9_witness :
    ((some (⟨2025, 11, 30, 6, 59, 58, 5⟩ : CivilTime) =
        some (⟨2025, 11, 30, 6, 59, 58, 5⟩ : CivilTime) →
      (2025 : ℤ) = 2025 ∧ (11 : ℤ) = 11 ∧ (30 : ℤ) = 30 ∧
      (6 : ℤ) = 6 ∧ (59 : ℤ) = 59 ∧ (58 : ℤ) = 58 ∧ (5 : ℤ) = 5) ∧
     (some (⟨2025, 11, 30, 17, 21, 3, 9⟩ : CivilTime) =
        some (⟨2025, 11, 30, 17, 21, 3, 9⟩ : CivilTime) →
      (2025 : ℤ) = 2025 ∧ (11 : ℤ) = 11 ∧ (30 : ℤ) = 30 ∧
      (17 : ℤ) = 17 ∧ (21 : ℤ) = 21 ∧ (3 : ℤ) = 3 ∧ (9 : ℤ) = 9)) :=
  c9_pinned_to_requested_date id 2025 11 30
    ⟨2025, 12, 1, 6, 59, 58, 5⟩ ⟨2025, 12, 1, 17, 21, 3, 9⟩ true true
    ⟨some ⟨2025, 11, 30, 6, 59, 58, 5⟩, some ⟨2025, 11, 30, 17, 21, 3, 9⟩⟩
    ⟨2025, 11, 30, 6, 59, 58, 5⟩ ⟨2025, 11, 30, 17, 21, 3, 9⟩
    (by norm_num [clockInRange]) (by norm_num [clockInRange]) (Or.inl (by rfl))

end Orchestrator

/-! ## Claims about the real-valued position and phase models -/

namespace RealModel

/-- `math.Atan2` (modelled by `Complex.arg`) lies in `(-π, π]`. -/
lemma atan2_mem (y x : ℝ) : -Real.pi < atan2 y x ∧ atan2 y x ≤ Real.pi :=
  ⟨Complex.neg_pi_lt_arg _, Complex.arg_le_pi _⟩

/-- The right-ascension normalisation (`+2π` when negative, then
degrees) lands in `[0, 360)`. -/
lemma ra_deg_bounds (y x : ℝ) :
    0 ≤ Rad2Deg (if atan2 y x < 0 then atan2 y x + 2 * Real.pi else atan2 y x) ∧
    Rad2Deg (if atan2 y x < 0 then atan2 y x + 2 * Real.pi else atan2 y x)
      < 360 := by
  obtain ⟨h1, h2⟩ := atan2_mem y x
  have hpi := Real.pi_pos
  have hra : 0 ≤ (if atan2 y x < 0 then atan2 y x + 2 * Real.pi else atan2 y x) ∧
      (if atan2 y x < 0 then atan2 y x + 2 * Real.pi else atan2 y x)
        < 2 * Real.pi := by
    split_ifs with h <;> constructor <;> linarith
  unfold Rad2Deg
  constructor
  · exact div_nonneg (mul_nonneg hra.1 (by norm_num)) (le_of_lt hpi)
  · rw [div_lt_iff hpi]
    nlinarith [hra.2]

/-- The declination (`asin` of the rotated `z`, in degrees) lands in
`[-90, 90]`. -/
lemma dec_deg_bounds (z : ℝ) :
    -90 ≤ Rad2Deg (Real.arcsin z) ∧ Rad2Deg (Real.arcsin z) ≤ 90 := by
  have h1 := Real.neg_pi_div_two_le_arcsin z
  have h2 := Real.arcsin_le_pi_div_two z
  have hpi := Real.pi_pos
  unfold Rad2Deg
  constructor
  · rw [le_div_iff hpi]; nlinarith
  · rw [div_le_iff hpi]; nlinarith

/-- `acos` of anything, in degrees, lands in `[0, 180]`. -/
lemma arccos_deg_bounds (x : ℝ) :
    0 ≤ Rad2Deg (Real.arccos x) ∧ Rad2Deg (Real.arccos x) ≤ 180 := by
  have h1 := Real.arccos_nonneg x
  have h2 := Real.arccos_le_pi x
  have hpi := Real.pi_pos
  unfold Rad2Deg
  constructor
  · exact div_nonneg (mul_nonneg h1 (by norm_num)) (le_of_lt hpi)
  · rw [div_le_iff hpi]; nlinarith

/-- C8: for every time, the Sun's geocentric right ascension lies in
`[0, 360)` — the two-argument arctangent gets `+360°` exactly when
negative — and its declination (an arcsine) lies in `[-90, 90]`; the
Moon's geocentric model satisfies the same ranges. -/
theorem c8_ra_dec_ranges (d : ℝ) :
    (0 ≤ (sunGeocentricEquatorialApprox d).RA ∧
      (sunGeocentricEquatorialApprox d).RA < 360 ∧
      -90 ≤ (sunGeocentricEquatorialApprox d).Dec ∧
      (sunGeocentricEquatorialApprox d).Dec ≤ 90) ∧
    (0 ≤ (moonGeocentricEquatorialApprox d).RA ∧
      (moonGeocentricEquatorialApprox d).RA < 360 ∧
      -90 ≤ (moonGeocentricEquatorialApprox d).Dec ∧
      (moonGeocentricEquatorialApprox d).Dec ≤ 90) := by
  constructor
  · simp only [sunGeocentricEquatorialApprox]
    exact ⟨(ra_deg_bounds _ _).1, (ra_deg_bounds _ _).2,
      (dec_deg_bounds _).1, (dec_deg_bounds _).2⟩
  · simp only [moonGeocentricEquatorialApprox]
    exact ⟨(ra_deg_bounds _ _).1, (ra_deg_bounds _ _).2,
      (dec_deg_bounds _).1, (dec_deg_bounds _).2⟩

/-- C7: `MoonPhaseAt` never returns an error (the Go implementation ends
in `return ..., nil` on every path), the Sun–Moon separation cosine is
clamped into `[-1, 1]`, the illuminated fraction equals
`(1 - cos ψ)/2` of the clamped cosine and lies in `[0, 1]`, and the
elongation lies in `[0, 180]` degrees. -/
theorem c7_phase_total_and_bounded (d : ℝ) :
    MoonPhaseAtE d = .ok (MoonPhaseAt d) ∧
    -1 ≤ moonPhaseCosPsi d ∧ moonPhaseCosPsi d ≤ 1 ∧
    (MoonPhaseAt d).Fraction = (1 - moonPhaseCosPsi d) / 2 ∧
    0 ≤ (MoonPhaseAt d).Fraction ∧ (MoonPhaseAt d).Fraction ≤ 1 ∧
    0 ≤ (MoonPhaseAt d).Elongation ∧ (MoonPhaseAt d).Elongation ≤ 180 := by
  have hc : -1 ≤ moonPhaseCosPsi d ∧ moonPhaseCosPsi d ≤ 1 := by
    simp only [moonPhaseCosPsi]
    split_ifs with h1 h2 <;> constructor <;> linarith
  have hfrac : (MoonPhaseAt d).Fraction = (1 - moonPhaseCosPsi d) / 2 := by
    simp only [MoonPhaseAt]
    rw [if_neg (by linarith [hc.2] : ¬ (0.5 * (1 - moonPhaseCosPsi d) < 0)),
      if_neg (by linarith [hc.1] : ¬ ((1 : ℝ) < 0.5 * (1 - moonPhaseCosPsi d)))]
    ring
  have helong : (MoonPhaseAt d).Elongation =
      Rad2Deg (Real.arccos (moonPhaseCosPsi d)) := by
    simp only [MoonPhaseAt]
  refine ⟨rfl, hc.1, hc.2, hfrac, ?_, ?_, ?_, ?_⟩
  · rw [hfrac]; linarith [hc.2]
  · rw [hfrac]; linarith [hc.1]
  · rw [helong]; exact (arccos_deg_bounds _).1
  · rw [helong]; exact (arccos_deg_bounds _).2

end RealModel

end Astro
